import Mathlib

/-!
Verification development for the HEMVM transaction executor
(cfx-evm/src/execution/executor.rs and executed.rs).

Machine integers (U256/U512/u64) are modelled as Nat; the source performs
the balance comparison in 512-bit arithmetic, which never overflows for
256-bit operands, so plain Nat arithmetic is exact there.  The one place
where 256-bit overflow is observable, `saturating_mul` for fees, is
modelled explicitly by `satMul`.  Fallible paths (a `bail!` on a state-db
error, a Rust panic) are modelled with `Except` / `Option`.
-/

namespace HEMVM

/-! ## Definitions -/


/-- The constant 2^256, the number of values of a 256-bit word. -/
def U256_LIMIT : Nat := 2 ^ 256

/-- U256::saturating_mul from the source: the product clamped at 2^256 - 1. -/
def satMul (a b : Nat) : Nat := min (a * b) (U256_LIMIT - 1)

/-- primitives::transaction::Action. -/
inductive Action where
  | create : Action
  | call (addr : Nat) : Action
deriving DecidableEq

/-- Whether the action is Create (the source compares with Action::Create). -/
def Action.isCreate : Action → Bool
  | .create => true
  | .call _ => false

/-- The view of a transaction consumed by the executor (TransactionInfo):
sender address, nonce, gas limit, gas price, value, action and data. -/
structure Transaction where
  sender : Nat
  nonce : Nat
  gas : Nat
  gas_price : Nat
  value : Nat
  action : Action
  data : List Nat
deriving DecidableEq

/-- The gas-schedule constants of vm::Spec used by the executor. -/
structure Spec where
  tx_gas : Nat
  tx_create_gas : Nat
  tx_data_zero_gas : Nat
  tx_data_non_zero_gas : Nat
  account_start_nonce : Nat
deriving DecidableEq

/-- gas_required_for from executor.rs: fold over the data bytes starting
from the create/call intrinsic gas, adding the zero- or non-zero-byte cost. -/
def gas_required_for (is_create : Bool) (data : List Nat) (spec : Spec) : Nat :=
  data.foldl
    (fun g b => g + (if b = 0 then spec.tx_data_zero_gas else spec.tx_data_non_zero_gas))
    (if is_create then spec.tx_create_gas else spec.tx_gas)

/-- An account record: balance and nonce (code/storage are irrelevant to the
claims about the executor and are omitted). -/
structure Account where
  balance : Nat
  nonce : Nat
deriving DecidableEq

/-- The world state as seen by the executor: a partial map from addresses to
accounts plus the global issued-supply counter. -/
structure WorldState where
  accounts : Nat → Option Account
  total_issued : Nat

/-- Modelled from the spec: `state.nonce(addr)` of the world-state operations
(the cfx_state crate is not under src/); an absent account reads nonce 0. -/
def WorldState.nonceOf (st : WorldState) (a : Nat) : Nat :=
  match st.accounts a with
  | some acc => acc.nonce
  | none => 0

/-- Modelled from the spec: `state.balance(addr)`; an absent account reads 0. -/
def WorldState.balanceOf (st : WorldState) (a : Nat) : Nat :=
  match st.accounts a with
  | some acc => acc.balance
  | none => 0

/-- Modelled from the spec: `state.exists(addr)`. -/
def WorldState.existsAcc (st : WorldState) (a : Nat) : Bool :=
  (st.accounts a).isSome

/-- Pointwise update of the account map. -/
def WorldState.setAccount (st : WorldState) (a : Nat) (v : Option Account) : WorldState :=
  { st with accounts := fun x => if x = a then v else st.accounts x }

/-- Modelled from the spec: `inc_nonce(addr, start_nonce)` creates the account
if absent, initialising its nonce to start_nonce, then adds one. -/
def WorldState.inc_nonce (st : WorldState) (a : Nat) (start_nonce : Nat) : WorldState :=
  match st.accounts a with
  | some acc => st.setAccount a (some { acc with nonce := acc.nonce + 1 })
  | none => st.setAccount a (some { balance := 0, nonce := start_nonce + 1 })

/-- Modelled from the spec: `sub_balance(addr, amount)`; the caller guarantees
balance greater or equal to amount on every path where it is invoked. -/
def WorldState.sub_balance (st : WorldState) (a : Nat) (amount : Nat) : WorldState :=
  match st.accounts a with
  | some acc => st.setAccount a (some { acc with balance := acc.balance - amount })
  | none => st

/-- Modelled from the spec: `add_balance(addr, amount, ..., start_nonce)`; an
absent account with a non-zero amount is created with nonce start_nonce. -/
def WorldState.add_balance (st : WorldState) (a : Nat) (amount : Nat) (start_nonce : Nat) :
    WorldState :=
  match st.accounts a with
  | some acc => st.setAccount a (some { acc with balance := acc.balance + amount })
  | none => if amount = 0 then st else st.setAccount a (some { balance := amount, nonce := start_nonce })

/-- Modelled from the spec: `remove_contract(addr)` deletes the account record. -/
def WorldState.remove_contract (st : WorldState) (a : Nat) : WorldState :=
  st.setAccount a none

/-- Modelled from the spec: `subtract_total_issued(amount)`. -/
def WorldState.subtract_total_issued (st : WorldState) (amount : Nat) : WorldState :=
  { st with total_issued := st.total_issued - amount }

/-- observer::AddressPocket, the tagged slots named by internal transfers. -/
inductive AddressPocket where
  | balance (a : Nat) : AddressPocket
  | gasPayment : AddressPocket
  | mintBurn : AddressPocket
  | storageCollateral (a : Nat) : AddressPocket
deriving DecidableEq

/-- The observer bundle (observer::MultiObservers): an optional state tracer
(modelled by the `tracing` flag plus the accumulated transfer list) and an
optional gas manager carrying its accumulated gas_required. -/
structure MultiObservers where
  tracing : Bool
  trace : List (AddressPocket × AddressPocket × Nat)
  gas_man : Option Nat
deriving DecidableEq

/-- trace_internal_transfer: appends the event when a tracer is present,
no-op otherwise (as_state_tracer returns a no-op tracer when absent). -/
def MultiObservers.trace_internal_transfer (obs : MultiObservers)
    (fromPocket toPocket : AddressPocket) (amount : Nat) : MultiObservers :=
  if obs.tracing then { obs with trace := obs.trace ++ [(fromPocket, toPocket, amount)] }
  else obs

/-- observer.tracer.map_or(Default::default(), |t| t.drain()). -/
def MultiObservers.drain (obs : MultiObservers) : List (AddressPocket × AddressPocket × Nat) :=
  if obs.tracing then obs.trace else []

/-- The Executed output record from executed.rs. -/
structure Executed where
  gas_used : Nat
  gas_charged : Nat
  fee : Nat
  logs : List Nat
  contracts_created : List Nat
  output : List Nat
  trace : List (AddressPocket × AddressPocket × Nat)
  estimated_gas_limit : Option Nat
deriving DecidableEq

/-- vm::Error, restricted to the distinctions the executor makes: the
state-db error (which aborts the call), Reverted (built by postprocessing),
and all other kinds, carried opaquely. -/
inductive VMError where
  | reverted : VMError
  | stateDbError (e : Nat) : VMError
  | outOfGas : VMError
  | other (kind : Nat) : VMError
deriving DecidableEq

/-- evm::FinalizationResult. -/
structure FinalizationResult where
  gas_left : Nat
  apply_state : Bool
  return_data : List Nat
deriving DecidableEq

/-- executed.rs TxDropError. -/
inductive TxDropError where
  | oldNonce (state_nonce tx_nonce : Nat) : TxDropError
  | notEnoughBaseGas (expected actual : Nat) : TxDropError
deriving DecidableEq

/-- executed.rs ToRepackError. -/
inductive ToRepackError where
  | invalidNonce (expected got : Nat) : ToRepackError
  | senderDoesNotExist : ToRepackError
deriving DecidableEq

/-- executed.rs ExecutionError. -/
inductive ExecutionError where
  | notEnoughCash (required got actual_gas_cost : Nat) : ExecutionError
  | vmError (e : VMError) : ExecutionError
deriving DecidableEq

/-- executed.rs ExecutionOutcome. -/
inductive ExecutionOutcome where
  | notExecutedDrop (e : TxDropError) : ExecutionOutcome
  | notExecutedToReconsiderPacking (e : ToRepackError) : ExecutionOutcome
  | executionErrorBumpNonce (e : ExecutionError) (executed : Executed) : ExecutionOutcome
  | finished (executed : Executed) : ExecutionOutcome
deriving DecidableEq

/-- The Executed carried by any outcome that has one. -/
def ExecutionOutcome.executedOf : ExecutionOutcome → Option Executed
  | .executionErrorBumpNonce _ e => some e
  | .finished e => some e
  | _ => none

/-- Whether the outcome is one of the two pre-execution rejects. -/
def ExecutionOutcome.isPreExecutionReject : ExecutionOutcome → Bool
  | .notExecutedDrop _ => true
  | .notExecutedToReconsiderPacking _ => true
  | _ => false

/-- Executed::not_enough_balance_fee_charged from executed.rs. -/
def Executed.not_enough_balance_fee_charged (tx : Transaction) (fee : Nat)
    (trace : List (AddressPocket × AddressPocket × Nat)) : Executed :=
  { gas_used := tx.gas
    gas_charged := if tx.gas_price = 0 then 0 else fee / tx.gas_price
    fee := fee
    logs := []
    contracts_created := []
    output := []
    trace := trace
    estimated_gas_limit := none }

/-- Executed::execution_error_fully_charged from executed.rs. -/
def Executed.execution_error_fully_charged (tx : Transaction)
    (trace : List (AddressPocket × AddressPocket × Nat)) : Executed :=
  { gas_used := tx.gas
    gas_charged := tx.gas
    fee := satMul tx.gas tx.gas_price
    logs := []
    contracts_created := []
    output := []
    trace := trace
    estimated_gas_limit := none }

/-- state::Substate, the per-transaction side-effect accumulator. -/
structure Substate where
  logs : List Nat
  contracts_created : List Nat
  suicides : List Nat
  touched : List Nat
  sstore_clears_refund : Nat
deriving DecidableEq

/-- Substate::new(). -/
def Substate.new : Substate :=
  { logs := [], contracts_created := [], suicides := [], touched := [], sstore_clears_refund := 0 }

/-- Substate::accrue: concatenation of the ordered sequences, union of the
sets (lists here), sum of the refund counter. -/
def Substate.accrue (s child : Substate) : Substate :=
  { logs := s.logs ++ child.logs
    contracts_created := s.contracts_created ++ child.contracts_created
    suicides := s.suicides ++ child.suicides
    touched := s.touched ++ child.touched
    sstore_clears_refund := s.sstore_clears_refund + child.sstore_clears_refund }

/-- TransactOptions::CheckSettings: the two flags the executor consults. -/
structure CheckSettings where
  charge_gas : Bool
  real_execution : Bool
deriving DecidableEq

/-- TransactOptions: the observer bundle plus the check settings. -/
structure TransactOptions where
  observer : MultiObservers
  check_settings : CheckSettings

/-- PreCheckResult from executor.rs; on Pass we keep exactly the data the
frame stack and postprocessing consume: the transaction substate, the base
gas, the init gas and the (possibly updated) observer. -/
inductive PreCheckResult where
  | pass (tx_substate : Substate) (base_gas_required : Nat) (init_gas : Nat)
      (observer : MultiObservers) : PreCheckResult
  | fail (outcome : ExecutionOutcome) : PreCheckResult

/-- The part of transact_preprocessing after the nonce comparison:
base-gas check, balance check, fee charging and nonce bump, in source
order (executor.rs lines 172-341). -/
def transact_preprocessing_after_nonce_check (spec : Spec) (tx : Transaction)
    (options : TransactOptions) (st : WorldState) : PreCheckResult × WorldState :=
  let observer := options.observer
  let base_gas_required := gas_required_for tx.action.isCreate tx.data spec
  if tx.gas < base_gas_required then
    (.fail (.notExecutedDrop (.notEnoughBaseGas base_gas_required tx.gas)), st)
  else
    let balance := st.balanceOf tx.sender
    let gas_cost := if options.check_settings.charge_gas then tx.gas * tx.gas_price else 0
    let sender_balance := balance
    let total_cost := tx.value + gas_cost
    if sender_balance < total_cost then
      let actual_gas_cost := min gas_cost sender_balance
      if !st.existsAcc tx.sender && options.check_settings.real_execution then
        (.fail (.notExecutedToReconsiderPacking .senderDoesNotExist), st)
      else
        let st1 := st.inc_nonce tx.sender spec.account_start_nonce
        let st2 := st1.sub_balance tx.sender actual_gas_cost
        let observer1 := observer.trace_internal_transfer
          (.balance tx.sender) .gasPayment actual_gas_cost
        (.fail (.executionErrorBumpNonce
            (.notEnoughCash total_cost sender_balance actual_gas_cost)
            (Executed.not_enough_balance_fee_charged tx actual_gas_cost observer1.drain)),
          st2)
    else
      let st1 := st.inc_nonce tx.sender spec.account_start_nonce
      let observer1 := observer.trace_internal_transfer
        (.balance tx.sender) .gasPayment gas_cost
      let st2 := st1.sub_balance tx.sender gas_cost
      let init_gas := tx.gas - base_gas_required
      (.pass Substate.new base_gas_required init_gas observer1, st2)

/-- transact_preprocessing from executor.rs: the nonce comparison followed by
the rest of the pipeline. -/
def transact_preprocessing (spec : Spec) (tx : Transaction) (options : TransactOptions)
    (st : WorldState) : PreCheckResult × WorldState :=
  let nonce := st.nonceOf tx.sender
  if tx.nonce < nonce then
    (.fail (.notExecutedDrop (.oldNonce nonce tx.nonce)), st)
  else if tx.nonce > nonce then
    (.fail (.notExecutedToReconsiderPacking (.invalidNonce nonce tx.nonce)), st)
  else
    transact_preprocessing_after_nonce_check spec tx options st

/-- FrameStackOutput from the frame stack: the accrued substate, the VM
result, the observer and the base gas threaded through. -/
structure FrameStackOutput where
  substate : Substate
  result : Except VMError FinalizationResult
  observer : MultiObservers
  base_gas_required : Nat

/-- kill_process from executor.rs: for each suicided contract, trace its
balance moving to MintBurn, remove the contract, subtract the balance from
the global issued supply. -/
def kill_process : WorldState → MultiObservers → List Nat → WorldState × MultiObservers
  | st, obs, [] => (st, obs)
  | st, obs, a :: rest =>
    let contract_balance := st.balanceOf a
    let obs1 := obs.trace_internal_transfer (.balance a) .mintBurn contract_balance
    let st1 := (st.remove_contract a).subtract_total_issued contract_balance
    kill_process st1 obs1 rest

/-- transact_postprocessing from executor.rs: refund computation, refund
credit, suicide processing and the final outcome classification.  A
state-db error from the VM aborts with the underlying error (the bail!). -/
def transact_postprocessing (spec : Spec) (tx : Transaction) (fso : FrameStackOutput)
    (st : WorldState) : Except Nat (ExecutionOutcome × WorldState × MultiObservers) :=
  let output := match fso.result with
    | .ok r => r.return_data
    | .error _ => []
  let estimated_gas_limit :=
    fso.observer.gas_man.map (fun g => g * 7 / 6 + fso.base_gas_required)
  let gas_left := match fso.result with
    | .ok r => r.gas_left
    | .error _ => 0
  let gas_used := tx.gas - gas_left
  let charge_all := gas_left + gas_left + gas_left ≥ gas_used
  let gcfr : Nat × Nat × Nat :=
    if charge_all then
      let gas_refunded := tx.gas / 4
      let gas_charged := tx.gas - gas_refunded
      (gas_charged, satMul gas_charged tx.gas_price, satMul gas_refunded tx.gas_price)
    else
      (gas_used, satMul gas_used tx.gas_price, satMul gas_left tx.gas_price)
  let gas_charged := gcfr.1
  let fees_value := gcfr.2.1
  let refund_value := gcfr.2.2
  let obs1 := fso.observer.trace_internal_transfer .gasPayment (.balance tx.sender) refund_value
  let st1 := st.add_balance tx.sender refund_value spec.account_start_nonce
  let kp := kill_process st1 obs1 fso.substate.suicides
  let st2 := kp.1
  let obs2 := kp.2
  let substate := fso.substate.accrue Substate.new
  match fso.result with
  | .error (VMError.stateDbError e) => .error e
  | .error exc =>
    .ok (.executionErrorBumpNonce (.vmError exc)
          (Executed.execution_error_fully_charged tx obs2.drain), st2, obs2)
  | .ok r =>
    let executed : Executed :=
      { gas_used := gas_used
        gas_charged := gas_charged
        fee := fees_value
        logs := substate.logs
        contracts_created := substate.contracts_created
        output := output
        trace := obs2.drain
        estimated_gas_limit := estimated_gas_limit }
    if r.apply_state then
      .ok (.finished executed, st2, obs2)
    else
      .ok (.executionErrorBumpNonce (.vmError .reverted) executed, st2, obs2)

/-- transact from executor.rs, with the frame-stack execution (the VM) as a
parameter: it receives the post-preprocessing state, the transaction
substate, the observer and the base/init gas, and returns the mutated state
together with the FrameStackOutput. -/
def transact (spec : Spec) (tx : Transaction) (options : TransactOptions) (st : WorldState)
    (vmExec : WorldState → Substate → MultiObservers → Nat → Nat → WorldState × FrameStackOutput) :
    Except Nat (ExecutionOutcome × WorldState) :=
  match transact_preprocessing spec tx options st with
  | (.fail outcome, st1) => .ok (outcome, st1)
  | (.pass tx_substate base_gas_required init_gas obs, st1) =>
    let vmRun := vmExec st1 tx_substate obs base_gas_required init_gas
    match transact_postprocessing spec tx vmRun.2 vmRun.1 with
    | .error e => .error e
    | .ok (outcome, st2, _) => .ok (outcome, st2)

/-- A gas schedule with the standard Ethereum constants. -/
def wSpec : Spec :=
  { tx_gas := 21000, tx_create_gas := 53000, tx_data_zero_gas := 4,
    tx_data_non_zero_gas := 68, account_start_nonce := 0 }

/-- An observer with an active tracer and no gas manager. -/
def wObs : MultiObservers := { tracing := true, trace := [], gas_man := none }

/-- Options with gas charging and real execution enabled. -/
def wOpts : TransactOptions :=
  { observer := wObs, check_settings := { charge_gas := true, real_execution := true } }

/-- A world state with a single account at address 1 (balance 10^9, nonce 5). -/
def wState : WorldState :=
  { accounts := fun x => if x = 1 then some { balance := 1000000000, nonce := 5 } else none
    total_issued := 0 }

/-- A transaction whose nonce 4 is older than the state nonce 5. -/
def wTxOld : Transaction :=
  { sender := 1, nonce := 4, gas := 21000, gas_price := 1, value := 0,
    action := .call 2, data := [] }

/-- A transaction with a matching nonce but gas limit 20000 below tx_gas. -/
def wTxLowGas : Transaction :=
  { sender := 1, nonce := 5, gas := 20000, gas_price := 1, value := 0,
    action := .call 2, data := [] }

/-- A transaction with a matching nonce whose gas cost 21000·10^6 exceeds the
sender's balance 10^9. -/
def wTxPoor : Transaction :=
  { sender := 1, nonce := 5, gas := 21000, gas_price := 1000000, value := 0,
    action := .call 2, data := [] }

/-- The ExecutionOutcome produced by postprocessing, none when it bails with
a state-db error. -/
def ppOutcome (spec : Spec) (tx : Transaction) (fso : FrameStackOutput) (st : WorldState) :
    Option ExecutionOutcome :=
  match transact_postprocessing spec tx fso st with
  | .ok (oc, _, _) => some oc
  | .error _ => none

/-- The world state produced by postprocessing, none when it bails. -/
def ppFinalState (spec : Spec) (tx : Transaction) (fso : FrameStackOutput) (st : WorldState) :
    Option WorldState :=
  match transact_postprocessing spec tx fso st with
  | .ok (_, st2, _) => some st2
  | .error _ => none

/-- The gas_left the spec speaks about: the VM's gas_left on success, 0 on
failure. -/
def claimGasLeft (fso : FrameStackOutput) : Nat :=
  match fso.result with
  | .ok r => r.gas_left
  | .error _ => 0

/-- The gas_charged formula of the spec: tx.gas - tx.gas/4 when
3·gas_left ≥ gas_used (the over-gassed refund clause), gas_used otherwise. -/
def claimGasCharged (tx : Transaction) (fso : FrameStackOutput) : Nat :=
  if 3 * claimGasLeft fso ≥ tx.gas - claimGasLeft fso then tx.gas - tx.gas / 4
  else tx.gas - claimGasLeft fso

/-- A transaction with gas limit 100000 and gas price 1. -/
def wTx100k : Transaction :=
  { sender := 1, nonce := 5, gas := 100000, gas_price := 1, value := 0,
    action := .call 2, data := [] }

/-- A frame-stack output that failed with OutOfGas. -/
def wFsoErr : FrameStackOutput :=
  { substate := Substate.new, result := .error .outOfGas, observer := wObs,
    base_gas_required := 21000 }

/-- A frame-stack output that succeeded using 1000 gas of the 100000 limit. -/
def wFso99k : FrameStackOutput :=
  { substate := Substate.new,
    result := .ok { gas_left := 99000, apply_state := true, return_data := [] },
    observer := wObs, base_gas_required := 21000 }

/-- The Executed record produced for the concrete over-gassed run. -/
def wEx99k : Executed :=
  { gas_used := 1000, gas_charged := 75000, fee := 75000, logs := [],
    contracts_created := [], output := [],
    trace := [(.gasPayment, .balance 1, 25000)], estimated_gas_limit := none }

/-- A transaction with zero gas and zero gas price. -/
def wTxZero : Transaction :=
  { sender := 1, nonce := 5, gas := 0, gas_price := 0, value := 0,
    action := .call 2, data := [] }

/-- A successful frame-stack output whose gas manager accumulated
gas_required = 1, with base gas 0. -/
def wFsoGasMan : FrameStackOutput :=
  { substate := Substate.new,
    result := .ok { gas_left := 0, apply_state := true, return_data := [] },
    observer := { tracing := false, trace := [], gas_man := some 1 },
    base_gas_required := 0 }

/-- A failed frame-stack output with the same active gas manager. -/
def wFsoGasManErr : FrameStackOutput :=
  { substate := Substate.new, result := .error .outOfGas,
    observer := { tracing := false, trace := [], gas_man := some 1 },
    base_gas_required := 0 }

/-- A VM execution stub for the witness: it leaves the state unchanged and
reports a clean, applying result. -/
def wVmExec : WorldState → Substate → MultiObservers → Nat → Nat →
    WorldState × FrameStackOutput :=
  fun st1 _sub obs b _i =>
    (st1,
      { substate := Substate.new,
        result := .ok { gas_left := 0, apply_state := true, return_data := [] },
        observer := obs, base_gas_required := b })

/-- A funded transaction with a matching nonce. -/
def wTxRich : Transaction :=
  { sender := 1, nonce := 5, gas := 21000, gas_price := 1, value := 10,
    action := .call 2, data := [] }

/-- Big-endian base-256 encoding of n on k bytes (most significant first). -/
def beBytes : Nat → Nat → List Nat
  | 0, _ => []
  | k + 1, n => beBytes k (n / 256) ++ [n % 256]

/-- The value of a big-endian byte string. -/
def beNat (l : List Nat) : Nat := l.foldl (fun a b => a * 256 + b) 0

/-- Whether a byte is a UTF-8 continuation byte (10xxxxxx). -/
def isCont (b : Nat) : Bool := 128 ≤ b && b ≤ 191

/-- Full UTF-8 validity of a byte string (what String::from_utf8 accepts
inside String::abi_decode): ASCII, 2-, 3- and 4-byte sequences with the
overlong/surrogate/range exclusions. -/
def validUtf8 : List Nat → Bool
  | [] => true
  | b :: l =>
    if b ≤ 127 then validUtf8 l
    else if 194 ≤ b && b ≤ 223 then
      match l with
      | c1 :: l1 => isCont c1 && validUtf8 l1
      | [] => false
    else if b = 224 then
      match l with
      | c1 :: c2 :: l1 => (160 ≤ c1 && c1 ≤ 191) && isCont c2 && validUtf8 l1
      | _ => false
    else if (225 ≤ b && b ≤ 236) || b = 238 || b = 239 then
      match l with
      | c1 :: c2 :: l1 => isCont c1 && isCont c2 && validUtf8 l1
      | _ => false
    else if b = 237 then
      match l with
      | c1 :: c2 :: l1 => (128 ≤ c1 && c1 ≤ 159) && isCont c2 && validUtf8 l1
      | _ => false
    else if b = 240 then
      match l with
      | c1 :: c2 :: c3 :: l1 => (144 ≤ c1 && c1 ≤ 191) && isCont c2 && isCont c3 && validUtf8 l1
      | _ => false
    else if 241 ≤ b && b ≤ 243 then
      match l with
      | c1 :: c2 :: c3 :: l1 => isCont c1 && isCont c2 && isCont c3 && validUtf8 l1
      | _ => false
    else if b = 244 then
      match l with
      | c1 :: c2 :: c3 :: l1 => (128 ≤ c1 && c1 ≤ 143) && isCont c2 && isCont c3 && validUtf8 l1
      | _ => false
    else false

/-- Rust's str::is_char_boundary on the byte string: true at 0 and at the
total length, and at an index holding a non-continuation byte. -/
def is_char_boundary (s : List Nat) (i : Nat) : Bool :=
  if i = 0 then true
  else
    match s.get? i with
    | none => decide (i = s.length)
    | some b => decide (b < 128) || decide (192 ≤ b)

/-- One hex digit (lowercase, as hex::encode produces). -/
def hexDigit (n : Nat) : Nat := if n < 10 then 48 + n else 87 + n

/-- hex::encode of a byte string, as a byte string of ASCII digits. -/
def hexEncode (l : List Nat) : List Nat :=
  (l.map (fun b => [hexDigit (b / 16), hexDigit (b % 16)])).flatten

/-- Modelled from the spec: String::abi_decode of the solidity_abi crate
(not under src/) — standard Solidity ABI: a 32-byte head holding the
offset, at the offset a 32-byte length followed by the bytes, which must
decode as UTF-8. -/
def abiDecodeString (d : List Nat) : Option (List Nat) :=
  if d.length < 32 then none
  else
    let off := beNat (d.take 32)
    if d.length < off + 32 then none
    else
      let len := beNat ((d.drop off).take 32)
      let payload := (d.drop (off + 32)).take len
      if payload.length < len then none
      else if validUtf8 payload then some payload
      else none

/-- Modelled from the spec: the canonical Solidity ABI encoding of a string
(offset 32, length, bytes, zero padding to a 32-byte multiple). -/
def abi_encode_string (s : List Nat) : List Nat :=
  beBytes 32 32 ++ (beBytes 32 s.length ++ (s ++ List.replicate ((32 - s.length % 32) % 32) 0))

/-- Modelled from the spec: the ABI encoding of Error(string), the selector
08 c3 79 a0 followed by the encoded string. -/
def abi_encode_error_string (s : List Nat) : List Nat :=
  [8, 195, 121, 160] ++ abi_encode_string s

/-- revert_reason_decode from executed.rs, on byte strings.  The result is
an Option: none models the Rust panic that str slicing raises when byte 50
is not a character boundary; every other path returns some string. -/
def revert_reason_decode (output : List Nat) : Option (List Nat) :=
  let decode_result : Option (List Nat) :=
    if output.length < 4 then none
    else if output.take 4 = [8, 195, 121, 160] then abiDecodeString (output.drop 4)
    else none
  match decode_result with
  | some str =>
    if str.length < 50 then some str
    else if is_char_boundary str 50 then some (str.take 50 ++ [46, 46, 46])
    else none
  | none => some ([48, 120] ++ hexEncode output)

/-- Forty-nine ASCII letters followed by one three-byte character: byte 50 falls
inside the final character. -/
def c7str : List Nat := List.replicate 49 97 ++ [230, 153, 186]

/-- A second valid string with byte 50 inside its final character. -/
def c10str : List Nat := List.replicate 49 98 ++ [230, 153, 186]

/-! ## Theorems -/

/-- Folding `g + f b` over a list starting from `init` sums the images. -/
theorem foldl_add_eq_sum (f : Nat → Nat) (l : List Nat) (init : Nat) :
    l.foldl (fun g b => g + f b) init = init + (l.map f).sum := by
  induction l generalizing init with
  | nil => simp
  | cons b l ih => simp [List.foldl, ih, Nat.add_assoc]

/-- setAccount stores the given record at the given address. -/
theorem WorldState.setAccount_accounts_self (st : WorldState) (a : Nat) (v : Option Account) :
    (st.setAccount a v).accounts a = v := by
  simp [WorldState.setAccount]

/-- inc_nonce with start nonce 0 adds exactly one to the observed nonce,
also when the account is created on the fly. -/
theorem WorldState.inc_nonce_nonceOf_zero (st : WorldState) (a : Nat) :
    (st.inc_nonce a 0).nonceOf a = st.nonceOf a + 1 := by
  unfold WorldState.inc_nonce WorldState.nonceOf
  cases h : st.accounts a <;> simp [WorldState.setAccount, h]

/-- inc_nonce leaves the observed balance unchanged. -/
theorem WorldState.inc_nonce_balanceOf (st : WorldState) (a : Nat) (s : Nat) :
    (st.inc_nonce a s).balanceOf a = st.balanceOf a := by
  unfold WorldState.inc_nonce WorldState.balanceOf
  cases h : st.accounts a <;> simp [WorldState.setAccount, h]

/-- inc_nonce makes the account exist. -/
theorem WorldState.inc_nonce_existsAcc (st : WorldState) (a : Nat) (s : Nat) :
    (st.inc_nonce a s).existsAcc a = true := by
  unfold WorldState.inc_nonce WorldState.existsAcc
  cases h : st.accounts a <;> simp [WorldState.setAccount, h]

/-- sub_balance subtracts from the observed balance (truncated subtraction;
the executor only calls it with amount at most the balance). -/
theorem WorldState.sub_balance_balanceOf (st : WorldState) (a : Nat) (amt : Nat) :
    (st.sub_balance a amt).balanceOf a = st.balanceOf a - amt := by
  unfold WorldState.sub_balance WorldState.balanceOf
  cases h : st.accounts a <;> simp [WorldState.setAccount, h]

/-- sub_balance leaves the observed nonce unchanged. -/
theorem WorldState.sub_balance_nonceOf (st : WorldState) (a : Nat) (amt : Nat) :
    (st.sub_balance a amt).nonceOf a = st.nonceOf a := by
  unfold WorldState.sub_balance WorldState.nonceOf
  cases h : st.accounts a <;> simp [WorldState.setAccount, h]

/-- add_balance adds to the observed balance, also when the account is
created on the fly. -/
theorem WorldState.add_balance_balanceOf (st : WorldState) (a : Nat) (amt : Nat) (s : Nat) :
    (st.add_balance a amt s).balanceOf a = st.balanceOf a + amt := by
  unfold WorldState.add_balance WorldState.balanceOf
  cases h : st.accounts a
  · by_cases hz : amt = 0 <;> simp [WorldState.setAccount, h, hz]
  · simp [WorldState.setAccount, h]

/-- add_balance leaves the nonce of an existing account unchanged. -/
theorem WorldState.add_balance_nonceOf_of_some (st : WorldState) (a : Nat) (amt : Nat)
    (s : Nat) (acc : Account) (h : st.accounts a = some acc) :
    (st.add_balance a amt s).nonceOf a = st.nonceOf a := by
  unfold WorldState.add_balance WorldState.nonceOf
  simp [WorldState.setAccount, h]

/-- kill_process does not touch the account record of an address that is not
in the suicide list. -/
theorem kill_process_accounts_not_mem (l : List Nat) (st : WorldState) (obs : MultiObservers)
    (a : Nat) (h : a ∉ l) : ((kill_process st obs l).1).accounts a = st.accounts a := by
  induction l generalizing st obs with
  | nil => rfl
  | cons x rest ih =>
    simp only [List.mem_cons, not_or] at h
    simp only [kill_process]
    rw [ih _ _ h.2]
    simp [WorldState.remove_contract, WorldState.subtract_total_issued,
      WorldState.setAccount, h.1]

/-- Claim C3: transact first compares tx.nonce against the sender's state
nonce: strictly smaller gives NotExecutedDrop(OldNonce(state_nonce,
tx.nonce)); strictly larger gives NotExecutedToReconsiderPacking
(InvalidNonce{expected: state_nonce, got: tx.nonce}); only an equal nonce
proceeds to the base-gas check. -/
theorem transact_preprocessing_nonce_check (spec : Spec) (tx : Transaction)
    (options : TransactOptions) (st : WorldState) :
    (tx.nonce < st.nonceOf tx.sender →
      transact_preprocessing spec tx options st =
        (.fail (.notExecutedDrop (.oldNonce (st.nonceOf tx.sender) tx.nonce)), st))
    ∧ (tx.nonce > st.nonceOf tx.sender →
      transact_preprocessing spec tx options st =
        (.fail (.notExecutedToReconsiderPacking
          (.invalidNonce (st.nonceOf tx.sender) tx.nonce)), st))
    ∧ (tx.nonce = st.nonceOf tx.sender →
      transact_preprocessing spec tx options st =
        transact_preprocessing_after_nonce_check spec tx options st) := by
  refine ⟨fun h => ?_, fun h => ?_, fun h => ?_⟩
  · simp only [transact_preprocessing]
    rw [if_pos h]
  · simp only [transact_preprocessing]
    rw [if_neg (by omega), if_pos h]
  · simp only [transact_preprocessing]
    rw [if_neg (by omega), if_neg (by omega)]

/-- Witness for C3 at a concrete old-nonce transaction. -/
theorem transact_preprocessing_nonce_check_witness :
    transact_preprocessing wSpec wTxOld wOpts wState =
      (.fail (.notExecutedDrop (.oldNonce 5 4)), wState) :=
  (transact_preprocessing_nonce_check wSpec wTxOld wOpts wState).1 (by decide)

/-- Claim C5: the base gas is tx_create_gas for Create and tx_gas otherwise,
plus tx_data_zero_gas per zero byte and tx_data_non_zero_gas per non-zero
byte of the data; a gas limit strictly below it yields
NotExecutedDrop(NotEnoughBaseGas{expected: base_gas, actual: tx.gas}). -/
theorem transact_preprocessing_base_gas (spec : Spec) (tx : Transaction)
    (options : TransactOptions) (st : WorldState)
    (hn : tx.nonce = st.nonceOf tx.sender) :
    gas_required_for tx.action.isCreate tx.data spec =
      (if tx.action.isCreate then spec.tx_create_gas else spec.tx_gas)
        + (tx.data.map
            (fun b => if b = 0 then spec.tx_data_zero_gas else spec.tx_data_non_zero_gas)).sum
    ∧ (tx.gas < gas_required_for tx.action.isCreate tx.data spec →
        transact_preprocessing spec tx options st =
          (.fail (.notExecutedDrop (.notEnoughBaseGas
            (gas_required_for tx.action.isCreate tx.data spec) tx.gas)), st)) := by
  constructor
  · unfold gas_required_for
    exact foldl_add_eq_sum _ _ _
  · intro h
    simp only [transact_preprocessing]
    rw [if_neg (by omega), if_neg (by omega)]
    simp only [transact_preprocessing_after_nonce_check]
    rw [if_pos h]

/-- Witness for C5 at a concrete transaction with gas 20000 below the base
gas 21000. -/
theorem transact_preprocessing_base_gas_witness :
    transact_preprocessing wSpec wTxLowGas wOpts wState =
      (.fail (.notExecutedDrop (.notEnoughBaseGas 21000 20000)), wState) :=
  (transact_preprocessing_base_gas wSpec wTxLowGas wOpts wState (by decide)).2 (by decide)

/-- Claim C4: when the sender's balance is below tx.value + tx.gas·gas_price,
a non-existent sender under real execution gives
NotExecutedToReconsiderPacking(SenderDoesNotExist) with no state change;
otherwise the nonce is bumped, exactly min(gas_cost, balance) is subtracted
from the balance, a Balance(sender) to GasPayment transfer of that amount is
traced, and the outcome is ExecutionErrorBumpNonce(NotEnoughCash{required,
got, actual_gas_cost}, Executed) with fee = actual_gas_cost and
gas_used = tx.gas. -/
theorem transact_preprocessing_not_enough_cash (spec : Spec) (tx : Transaction)
    (options : TransactOptions) (st : WorldState)
    (hn : tx.nonce = st.nonceOf tx.sender)
    (hb : gas_required_for tx.action.isCreate tx.data spec ≤ tx.gas)
    (hcg : options.check_settings.charge_gas = true)
    (hlt : st.balanceOf tx.sender < tx.value + tx.gas * tx.gas_price)
    (hstart : spec.account_start_nonce = 0) :
    (st.existsAcc tx.sender = false → options.check_settings.real_execution = true →
      transact_preprocessing spec tx options st =
        (.fail (.notExecutedToReconsiderPacking .senderDoesNotExist), st))
    ∧ ((st.existsAcc tx.sender = true ∨ options.check_settings.real_execution = false) →
      ∃ ex,
        (transact_preprocessing spec tx options st).1 =
          .fail (.executionErrorBumpNonce
            (.notEnoughCash (tx.value + tx.gas * tx.gas_price) (st.balanceOf tx.sender)
              (min (tx.gas * tx.gas_price) (st.balanceOf tx.sender))) ex)
        ∧ ex.fee = min (tx.gas * tx.gas_price) (st.balanceOf tx.sender)
        ∧ ex.gas_used = tx.gas
        ∧ (options.observer.tracing = true →
            ex.trace = options.observer.trace ++
              [(.balance tx.sender, .gasPayment,
                min (tx.gas * tx.gas_price) (st.balanceOf tx.sender))])
        ∧ ((transact_preprocessing spec tx options st).2).nonceOf tx.sender =
            st.nonceOf tx.sender + 1
        ∧ ((transact_preprocessing spec tx options st).2).balanceOf tx.sender =
            st.balanceOf tx.sender -
              min (tx.gas * tx.gas_price) (st.balanceOf tx.sender)) := by
  have hpre : transact_preprocessing spec tx options st =
      transact_preprocessing_after_nonce_check spec tx options st := by
    simp only [transact_preprocessing]
    rw [if_neg (by omega), if_neg (by omega)]
  have hbg : ¬ tx.gas < gas_required_for tx.action.isCreate tx.data spec := by omega
  constructor
  · intro hex hre
    rw [hpre]
    simp only [transact_preprocessing_after_nonce_check, hcg, if_true]
    rw [if_neg hbg, if_pos hlt, if_pos (by simp [hex, hre])]
  · intro hor
    rw [hpre]
    simp only [transact_preprocessing_after_nonce_check, hcg, if_true]
    rw [if_neg hbg, if_pos hlt,
      if_neg (by rcases hor with h | h <;> simp [h])]
    refine ⟨_, rfl, rfl, rfl, fun htr => ?_, ?_, ?_⟩
    · simp [Executed.not_enough_balance_fee_charged, MultiObservers.drain,
        MultiObservers.trace_internal_transfer, htr]
    · rw [WorldState.sub_balance_nonceOf, hstart, WorldState.inc_nonce_nonceOf_zero]
    · rw [WorldState.sub_balance_balanceOf, WorldState.inc_nonce_balanceOf]

/-- Witness for C4: a concrete under-funded transaction from an existing
sender ends in NotEnoughCash with the whole balance charged. -/
theorem transact_preprocessing_not_enough_cash_witness :
    (wState.existsAcc wTxPoor.sender = true ∨ wOpts.check_settings.real_execution = false)
    ∧ (∃ ex,
        (transact_preprocessing wSpec wTxPoor wOpts wState).1 =
          .fail (.executionErrorBumpNonce
            (.notEnoughCash (wTxPoor.value + wTxPoor.gas * wTxPoor.gas_price)
              (wState.balanceOf wTxPoor.sender)
              (min (wTxPoor.gas * wTxPoor.gas_price) (wState.balanceOf wTxPoor.sender))) ex)
        ∧ ex.fee = min (wTxPoor.gas * wTxPoor.gas_price) (wState.balanceOf wTxPoor.sender)
        ∧ ex.gas_used = wTxPoor.gas
        ∧ (wOpts.observer.tracing = true →
            ex.trace = wOpts.observer.trace ++
              [(.balance wTxPoor.sender, .gasPayment,
                min (wTxPoor.gas * wTxPoor.gas_price) (wState.balanceOf wTxPoor.sender))])
        ∧ ((transact_preprocessing wSpec wTxPoor wOpts wState).2).nonceOf wTxPoor.sender =
            wState.nonceOf wTxPoor.sender + 1
        ∧ ((transact_preprocessing wSpec wTxPoor wOpts wState).2).balanceOf wTxPoor.sender =
            wState.balanceOf wTxPoor.sender -
              min (wTxPoor.gas * wTxPoor.gas_price) (wState.balanceOf wTxPoor.sender)) :=
  ⟨Or.inl (by decide),
    (transact_preprocessing_not_enough_cash wSpec wTxPoor wOpts wState
      (by decide) (by decide) (by decide) (by decide) (by decide)).2 (Or.inl (by decide))⟩

/-- satMul is the exact product as soon as the product is bounded by a
product known to stay below 2^256. -/
theorem satMul_eq_of_le (a b c : Nat) (h1 : a ≤ c) (h2 : c * b < U256_LIMIT) :
    satMul a b = a * b := by
  have hle : a * b ≤ c * b := Nat.mul_le_mul_right b h1
  unfold satMul
  omega

/-- Equal account entries give equal observed nonces. -/
theorem WorldState.nonceOf_congr (st st' : WorldState) (a : Nat)
    (h : st.accounts a = st'.accounts a) : st.nonceOf a = st'.nonceOf a := by
  unfold WorldState.nonceOf
  rw [h]

/-- Equal account entries give equal observed balances. -/
theorem WorldState.balanceOf_congr (st st' : WorldState) (a : Nat)
    (h : st.accounts a = st'.accounts a) : st.balanceOf a = st'.balanceOf a := by
  unfold WorldState.balanceOf
  rw [h]

/-- sub_balance does not change whether the account exists. -/
theorem WorldState.sub_balance_existsAcc (st : WorldState) (a : Nat) (amt : Nat) :
    (st.sub_balance a amt).existsAcc a = st.existsAcc a := by
  unfold WorldState.sub_balance WorldState.existsAcc
  cases h : st.accounts a <;> simp [WorldState.setAccount, h]

/-- On a non-state-db VM error, postprocessing produces
ExecutionErrorBumpNonce(VmError(e), execution_error_fully_charged). -/
theorem ppOutcome_error (spec : Spec) (tx : Transaction) (fso : FrameStackOutput)
    (st : WorldState) (e : VMError) (hdb : ∀ d, e ≠ .stateDbError d)
    (hres : fso.result = .error e) :
    ∃ tr, ppOutcome spec tx fso st =
      some (.executionErrorBumpNonce (.vmError e)
        (Executed.execution_error_fully_charged tx tr)) := by
  cases e with
  | stateDbError d => exact absurd rfl (hdb d)
  | reverted =>
    simp only [ppOutcome, transact_postprocessing, hres]
    exact ⟨_, rfl⟩
  | outOfGas =>
    simp only [ppOutcome, transact_postprocessing, hres]
    exact ⟨_, rfl⟩
  | other k =>
    simp only [ppOutcome, transact_postprocessing, hres]
    exact ⟨_, rfl⟩

/-- On an Ok VM result, postprocessing produces Finished(executed) when
apply_state holds and ExecutionErrorBumpNonce(VmError(Reverted), executed)
otherwise, with the refund-aware gas fields. -/
theorem ppOutcome_ok (spec : Spec) (tx : Transaction) (fso : FrameStackOutput)
    (st : WorldState) (r : FinalizationResult) (hres : fso.result = .ok r) :
    ∃ ex, ppOutcome spec tx fso st =
        some (if r.apply_state then ExecutionOutcome.finished ex
              else .executionErrorBumpNonce (.vmError .reverted) ex)
      ∧ ex.gas_used = tx.gas - r.gas_left
      ∧ ex.gas_charged = (if r.gas_left + r.gas_left + r.gas_left ≥ tx.gas - r.gas_left
          then tx.gas - tx.gas / 4 else tx.gas - r.gas_left)
      ∧ ex.fee = satMul ex.gas_charged tx.gas_price
      ∧ ex.logs = (fso.substate.accrue Substate.new).logs
      ∧ ex.contracts_created = (fso.substate.accrue Substate.new).contracts_created
      ∧ ex.output = r.return_data
      ∧ ex.estimated_gas_limit =
          fso.observer.gas_man.map (fun g => g * 7 / 6 + fso.base_gas_required) := by
  cases hb : r.apply_state
  all_goals simp only [ppOutcome, transact_postprocessing, hres, hb,
    Bool.false_eq_true, if_true, if_false]
  all_goals refine ⟨_, rfl, rfl, ?_, ?_, rfl, rfl, rfl, rfl⟩
  all_goals split
  all_goals rfl

/-- The world state after postprocessing: the sender's balance grows by
exactly the refund value computed by the source (satMul of gas/4 or of
gas_left with the gas price, by the charge-all test). -/
theorem ppFinalState_balance (spec : Spec) (tx : Transaction) (fso : FrameStackOutput)
    (st : WorldState)
    (hnb : ∀ d, fso.result ≠ .error (.stateDbError d))
    (hsui : tx.sender ∉ fso.substate.suicides) :
    (ppFinalState spec tx fso st).map (fun s => s.balanceOf tx.sender) =
      some (st.balanceOf tx.sender +
        (if claimGasLeft fso + claimGasLeft fso + claimGasLeft fso
              ≥ tx.gas - claimGasLeft fso
         then satMul (tx.gas / 4) tx.gas_price
         else satMul (claimGasLeft fso) tx.gas_price)) := by
  cases hres : fso.result with
  | ok r =>
    cases hb : r.apply_state
    all_goals
      simp only [ppFinalState, transact_postprocessing, hres, hb, Bool.false_eq_true,
        if_true, if_false, Option.map]
    all_goals
      rw [WorldState.balanceOf_congr _ _ _ (kill_process_accounts_not_mem _ _ _ _ hsui),
        WorldState.add_balance_balanceOf]
    all_goals
      simp only [claimGasLeft, hres]
    all_goals split
    all_goals rfl
  | error e =>
    cases e with
    | stateDbError d => exact absurd hres (hnb d)
    | reverted =>
      simp only [ppFinalState, transact_postprocessing, hres, Option.map]
      rw [WorldState.balanceOf_congr _ _ _ (kill_process_accounts_not_mem _ _ _ _ hsui),
        WorldState.add_balance_balanceOf]
      simp only [claimGasLeft, hres]
      split
      all_goals rfl
    | outOfGas =>
      simp only [ppFinalState, transact_postprocessing, hres, Option.map]
      rw [WorldState.balanceOf_congr _ _ _ (kill_process_accounts_not_mem _ _ _ _ hsui),
        WorldState.add_balance_balanceOf]
      simp only [claimGasLeft, hres]
      split
      all_goals rfl
    | other k =>
      simp only [ppFinalState, transact_postprocessing, hres, Option.map]
      rw [WorldState.balanceOf_congr _ _ _ (kill_process_accounts_not_mem _ _ _ _ hsui),
        WorldState.add_balance_balanceOf]
      simp only [claimGasLeft, hres]
      split
      all_goals rfl

/-- The claim's gas_left never exceeds the gas limit, given that the VM
returns gas_left within the limit. -/
theorem claimGasLeft_le (tx : Transaction) (fso : FrameStackOutput)
    (hgl : ∀ r, fso.result = .ok r → r.gas_left ≤ tx.gas) :
    claimGasLeft fso ≤ tx.gas := by
  cases hres : fso.result with
  | ok r =>
    simp only [claimGasLeft, hres]
    exact hgl r hres
  | error e =>
    simp only [claimGasLeft, hres]
    exact Nat.zero_le _

/-- The source's refund value equals (tx.gas - gas_charged)·gas_price with
the claim's gas_charged formula, once products stay below 2^256. -/
theorem code_refund_eq (tx : Transaction) (fso : FrameStackOutput)
    (hfee : tx.gas * tx.gas_price < U256_LIMIT)
    (hgl : ∀ r, fso.result = .ok r → r.gas_left ≤ tx.gas) :
    (if claimGasLeft fso + claimGasLeft fso + claimGasLeft fso ≥ tx.gas - claimGasLeft fso
     then satMul (tx.gas / 4) tx.gas_price
     else satMul (claimGasLeft fso) tx.gas_price) =
      (tx.gas - claimGasCharged tx fso) * tx.gas_price := by
  have hgl' : claimGasLeft fso ≤ tx.gas := claimGasLeft_le tx fso hgl
  have h4 : tx.gas / 4 ≤ tx.gas := Nat.div_le_self _ _
  unfold claimGasCharged
  by_cases hc : 3 * claimGasLeft fso ≥ tx.gas - claimGasLeft fso
  · rw [if_pos (by omega), if_pos hc,
      satMul_eq_of_le _ _ tx.gas (Nat.div_le_self _ _) hfee]
    congr 1
    omega
  · rw [if_neg (by omega), if_neg hc,
      satMul_eq_of_le _ _ tx.gas hgl' hfee]
    congr 1
    omega

/-- Claim C1: after the pre-checks pass, a non-StateDb VM error yields
ExecutionErrorBumpNonce(VmError(kind)) whose Executed is fully charged
(gas_used = gas_charged = tx.gas, fee = tx.gas·gas_price, no logs, no
created contracts); an Ok result with apply_state = false yields
ExecutionErrorBumpNonce(VmError(Reverted), executed); and the outcome is
Finished(executed) exactly when the VM returned Ok with apply_state. -/
theorem transact_postprocessing_classification (spec : Spec) (tx : Transaction)
    (fso : FrameStackOutput) (st : WorldState)
    (hfee : tx.gas * tx.gas_price < U256_LIMIT)
    (hnb : ∀ d, fso.result ≠ .error (.stateDbError d)) :
    (∀ e, fso.result = .error e →
      ∃ ex, ppOutcome spec tx fso st = some (.executionErrorBumpNonce (.vmError e) ex)
        ∧ ex.gas_used = tx.gas ∧ ex.gas_charged = tx.gas
        ∧ ex.fee = tx.gas * tx.gas_price
        ∧ ex.logs = [] ∧ ex.contracts_created = [])
    ∧ (∀ r, fso.result = .ok r → r.apply_state = false →
      ∃ ex, ppOutcome spec tx fso st =
        some (.executionErrorBumpNonce (.vmError .reverted) ex))
    ∧ ((∃ ex, ppOutcome spec tx fso st = some (.finished ex)) ↔
        (∃ r, fso.result = .ok r ∧ r.apply_state = true)) := by
  refine ⟨?_, ?_, ?_, ?_⟩
  · intro e he
    obtain ⟨tr, hpp⟩ :=
      ppOutcome_error spec tx fso st e (fun d hd => hnb d (hd ▸ he)) he
    exact ⟨_, hpp, rfl, rfl, satMul_eq_of_le _ _ _ le_rfl hfee, rfl, rfl⟩
  · intro r hr ha
    obtain ⟨ex, hpp, _⟩ := ppOutcome_ok spec tx fso st r hr
    rw [ha] at hpp
    simp only [Bool.false_eq_true, if_false] at hpp
    exact ⟨ex, hpp⟩
  · rintro ⟨ex, hex⟩
    cases hres : fso.result with
    | error e =>
      obtain ⟨tr, hpp⟩ :=
        ppOutcome_error spec tx fso st e (fun d hd => hnb d (hd ▸ hres)) hres
      rw [hex] at hpp
      simp at hpp
    | ok r =>
      cases hb : r.apply_state with
      | true => exact ⟨r, hres ▸ rfl, hb⟩
      | false =>
        obtain ⟨ex', hpp, _⟩ := ppOutcome_ok spec tx fso st r hres
        rw [hb] at hpp
        simp only [Bool.false_eq_true, if_false] at hpp
        rw [hex] at hpp
        simp at hpp
  · rintro ⟨r, hr, ha⟩
    obtain ⟨ex, hpp, _⟩ := ppOutcome_ok spec tx fso st r hr
    rw [ha] at hpp
    simp only [if_true] at hpp
    exact ⟨ex, hpp⟩

/-- Claim C2: with gas_left 0 on failure and the VM's gas_left on success,
gas_used = tx.gas - gas_left; the over-gassed clause charges
tx.gas - tx.gas/4 (refunding tx.gas/4) when 3·gas_left ≥ gas_used, else
gas_used is charged; fee = gas_charged·gas_price, and the refund
(tx.gas - gas_charged)·gas_price is credited back to the sender. -/
theorem transact_postprocessing_gas_accounting (spec : Spec) (tx : Transaction)
    (fso : FrameStackOutput) (st : WorldState)
    (hfee : tx.gas * tx.gas_price < U256_LIMIT)
    (hgl : ∀ r, fso.result = .ok r → r.gas_left ≤ tx.gas)
    (hsui : tx.sender ∉ fso.substate.suicides)
    (hnb : ∀ d, fso.result ≠ .error (.stateDbError d)) :
    (ppFinalState spec tx fso st).map (fun s => s.balanceOf tx.sender) =
      some (st.balanceOf tx.sender + (tx.gas - claimGasCharged tx fso) * tx.gas_price)
    ∧ (∀ r, fso.result = .ok r → ∀ ex,
        (ppOutcome spec tx fso st).bind ExecutionOutcome.executedOf = some ex →
        ex.gas_used = tx.gas - claimGasLeft fso
        ∧ ex.gas_charged = claimGasCharged tx fso
        ∧ ex.fee = claimGasCharged tx fso * tx.gas_price) := by
  constructor
  · rw [ppFinalState_balance spec tx fso st hnb hsui,
      code_refund_eq tx fso hfee hgl]
  · intro r hr ex hex
    obtain ⟨ex', hpp, hgu, hgc, hfe, _⟩ := ppOutcome_ok spec tx fso st r hr
    have hgl' : claimGasLeft fso = r.gas_left := by simp [claimGasLeft, hr]
    have hcharged : ex'.gas_charged = claimGasCharged tx fso := by
      rw [hgc]
      unfold claimGasCharged
      rw [hgl']
      by_cases hc : 3 * r.gas_left ≥ tx.gas - r.gas_left
      · rw [if_pos (by omega), if_pos hc]
      · rw [if_neg (by omega), if_neg hc]
    have hexx : ex' = ex := by
      cases hb : r.apply_state
      all_goals rw [hb] at hpp
      all_goals simp only [Bool.false_eq_true, if_false, if_true] at hpp
      all_goals rw [hpp] at hex
      all_goals simp only [Option.bind, ExecutionOutcome.executedOf] at hex
      all_goals exact Option.some.inj hex
    subst hexx
    refine ⟨by rw [hgu, hgl'], hcharged, ?_⟩
    rw [hfe, hcharged]
    have hle : claimGasCharged tx fso ≤ tx.gas := by
      unfold claimGasCharged
      split
      all_goals omega
    exact satMul_eq_of_le _ _ tx.gas hle hfee

/-- Witness for C1: the concrete OutOfGas frame result is classified as
ExecutionErrorBumpNonce with the fully-charged record. -/
theorem transact_postprocessing_classification_witness :
    ∃ ex, ppOutcome wSpec wTx100k wFsoErr wState =
        some (.executionErrorBumpNonce (.vmError .outOfGas) ex)
      ∧ ex.gas_used = 100000 ∧ ex.gas_charged = 100000
      ∧ ex.fee = 100000 * 1
      ∧ ex.logs = [] ∧ ex.contracts_created = [] :=
  (transact_postprocessing_classification wSpec wTx100k wFsoErr wState (by decide)
    (by intro d h; simp [wFsoErr] at h)).1 .outOfGas rfl

/-- Witness for C2: a run using 1000 of 100000 gas credits the 25000 refund
to the sender and charges 75000. -/
theorem transact_postprocessing_gas_accounting_witness :
    ((ppFinalState wSpec wTx100k wFso99k wState).map (fun s => s.balanceOf wTx100k.sender) =
      some (1000025000))
    ∧ (wEx99k.gas_used = wTx100k.gas - claimGasLeft wFso99k
       ∧ wEx99k.gas_charged = claimGasCharged wTx100k wFso99k
       ∧ wEx99k.fee = claimGasCharged wTx100k wFso99k * wTx100k.gas_price) :=
  ⟨((transact_postprocessing_gas_accounting wSpec wTx100k wFso99k wState (by decide)
      (by intro r hr; injection hr with h; rw [← h]; decide) (by decide)
      (by intro d h; simp [wFso99k] at h)).1).trans (by decide),
   (transact_postprocessing_gas_accounting wSpec wTx100k wFso99k wState (by decide)
      (by intro r hr; injection hr with h; rw [← h]; decide) (by decide)
      (by intro d h; simp [wFso99k] at h)).2
     { gas_left := 99000, apply_state := true, return_data := [] } rfl wEx99k (by decide)⟩

/-- Claim C8 (amended): for an Ok VM result, the Executed record's
estimated_gas_limit is gas_required·7/6 (integer floor division) plus the
base gas when the gas manager is active, and None when it is absent; the
fully-charged record produced for a VM error always carries None. -/
theorem estimated_gas_limit_floor_formula (spec : Spec) (tx : Transaction)
    (fso : FrameStackOutput) (st : WorldState) :
    (∀ r, fso.result = .ok r →
      ((ppOutcome spec tx fso st).bind ExecutionOutcome.executedOf).map
          Executed.estimated_gas_limit =
        some (fso.observer.gas_man.map (fun g => g * 7 / 6 + fso.base_gas_required)))
    ∧ (∀ e, fso.result = .error e → (∀ d, e ≠ .stateDbError d) →
        ((ppOutcome spec tx fso st).bind ExecutionOutcome.executedOf).map
            Executed.estimated_gas_limit = some none) := by
  constructor
  · intro r hres
    obtain ⟨ex, hpp, _, _, _, _, _, _, hest⟩ := ppOutcome_ok spec tx fso st r hres
    rw [hpp]
    cases hb : r.apply_state
    all_goals simp only [hb, Bool.false_eq_true, if_false, if_true, Option.bind,
      ExecutionOutcome.executedOf, Option.map]
    all_goals rw [hest]
    all_goals rfl
  · intro e he hdb
    obtain ⟨tr, hpp⟩ := ppOutcome_error spec tx fso st e hdb he
    rw [hpp]
    rfl

/-- Counterexample for C8: with gas_required = 1 and base gas 0 the code
stores 1·7/6 = 1, not the ceiling 2; and on a VM error the record carries
None even though the gas manager was active. -/
theorem estimated_gas_limit_ceiling_cex :
    ((ppOutcome wSpec wTxZero wFsoGasMan wState).bind ExecutionOutcome.executedOf).map
        Executed.estimated_gas_limit = some (some 1)
    ∧ (1 * 7 + 5) / 6 + 0 = 2
    ∧ ((ppOutcome wSpec wTxZero wFsoGasManErr wState).bind ExecutionOutcome.executedOf).map
        Executed.estimated_gas_limit = some none := by
  refine ⟨?_, by decide, ?_⟩
  all_goals decide

/-- Witness for the amended C8 at a concrete gas-manager run for each half:
the Ok result stores the floor value, the OutOfGas result stores None. -/
theorem estimated_gas_limit_floor_formula_witness :
    ((ppOutcome wSpec wTxZero wFsoGasMan wState).bind ExecutionOutcome.executedOf).map
        Executed.estimated_gas_limit = some (some 1)
    ∧ ((ppOutcome wSpec wTxZero wFsoGasManErr wState).bind ExecutionOutcome.executedOf).map
        Executed.estimated_gas_limit = some none :=
  ⟨(estimated_gas_limit_floor_formula wSpec wTxZero wFsoGasMan wState).1
      { gas_left := 0, apply_state := true, return_data := [] } rfl,
   (estimated_gas_limit_floor_formula wSpec wTxZero wFsoGasManErr wState).2
      .outOfGas rfl (fun _ h => VMError.noConfusion h)⟩

/-- Claim C9 (amended): a transaction with gas limit 100000 whose execution
uses only 1000 gas triggers the over-gassed clause and is charged
three quarters of the limit: gas_charged = 75000 and fee =
75000·gas_price (the spec's table value 25000 is the refunded quarter, not
the charge). -/
theorem overgassed_refund_charges_three_quarters (spec : Spec) (tx : Transaction)
    (fso : FrameStackOutput) (st : WorldState)
    (hgas : tx.gas = 100000)
    (hp : tx.gas * tx.gas_price < U256_LIMIT)
    (r : FinalizationResult) (hres : fso.result = .ok r) (hgl : r.gas_left = 99000) :
    ((ppOutcome spec tx fso st).bind ExecutionOutcome.executedOf).map
        (fun ex => (ex.gas_used, ex.gas_charged, ex.fee)) =
      some (1000, 75000, 75000 * tx.gas_price) := by
  obtain ⟨ex, hpp, hgu, hgc, hfe, _⟩ := ppOutcome_ok spec tx fso st r hres
  rw [hpp]
  have hgc' : ex.gas_charged = 75000 := by
    rw [hgc, hgl, hgas]
    norm_num
  have hfe' : ex.fee = 75000 * tx.gas_price := by
    rw [hfe, hgc']
    exact satMul_eq_of_le _ _ tx.gas (by omega) hp
  have hgu' : ex.gas_used = 1000 := by
    rw [hgu, hgl, hgas]
  cases hb : r.apply_state
  all_goals simp only [hb, Bool.false_eq_true, if_false, if_true, Option.bind,
    ExecutionOutcome.executedOf, Option.map]
  all_goals rw [hgu', hgc', hfe']

/-- Counterexample for C9: at gas limit 100000 with 1000 gas used, the code
charges 75000, not the 25000 stated in the spec's scenario table, although
the refund clause does trigger. -/
theorem overgassed_refund_cex :
    ((ppOutcome wSpec wTx100k wFso99k wState).bind ExecutionOutcome.executedOf).map
        (fun ex => (ex.gas_charged, ex.fee)) = some (75000, 75000)
    ∧ ((75000 : Nat), (75000 : Nat)) ≠ (25000, 25000 * 1)
    ∧ 3 * 99000 ≥ 100000 - 99000 := by
  refine ⟨?_, by decide, by decide⟩
  decide

/-- Witness for the amended C9 at the concrete run. -/
theorem overgassed_refund_charges_three_quarters_witness :
    ((ppOutcome wSpec wTx100k wFso99k wState).bind ExecutionOutcome.executedOf).map
        (fun ex => (ex.gas_used, ex.gas_charged, ex.fee)) =
      some (1000, 75000, 75000 * wTx100k.gas_price) :=
  overgassed_refund_charges_three_quarters wSpec wTx100k wFso99k wState rfl (by decide)
    { gas_left := 99000, apply_state := true, return_data := [] } rfl rfl

/-- Case analysis of the preprocessing pipeline: a pre-execution reject
leaves the state untouched; every other exit (NotEnoughCash failure or
Pass) has bumped the sender's nonce by exactly one and made the sender
account exist. -/
theorem transact_preprocessing_state_cases (spec : Spec) (tx : Transaction)
    (options : TransactOptions) (st : WorldState)
    (hstart : spec.account_start_nonce = 0) :
    ∀ pc st1, transact_preprocessing spec tx options st = (pc, st1) →
      (∀ oc, pc = .fail oc → oc.isPreExecutionReject = true → st1 = st)
      ∧ (∀ oc, pc = .fail oc → oc.isPreExecutionReject = false →
          st1.nonceOf tx.sender = st.nonceOf tx.sender + 1
            ∧ st1.existsAcc tx.sender = true)
      ∧ (∀ sub b i obs, pc = .pass sub b i obs →
          st1.nonceOf tx.sender = st.nonceOf tx.sender + 1
            ∧ st1.existsAcc tx.sender = true) := by
  intro pc st1 heq
  simp only [transact_preprocessing, transact_preprocessing_after_nonce_check] at heq
  repeat' split at heq
  all_goals injection heq with h1 h2
  all_goals subst h1
  all_goals subst h2
  all_goals refine ⟨fun oc hoc hrej => ?_, fun oc hoc hrej => ?_,
    fun sub b i obs hoc => ?_⟩
  all_goals first
    | exact PreCheckResult.noConfusion hoc
    | rfl
    | (injection hoc with h; subst h; exact Bool.noConfusion hrej)
    | (constructor
       · rw [WorldState.sub_balance_nonceOf, hstart, WorldState.inc_nonce_nonceOf_zero]
       · rw [WorldState.sub_balance_existsAcc, WorldState.inc_nonce_existsAcc])

/-- Postprocessing never bails when the VM result is not a state-db error,
its outcome is never a pre-execution reject, and it preserves the nonce of
an existing, non-suicided sender account. -/
theorem transact_postprocessing_sender_nonce (spec : Spec) (tx : Transaction)
    (fso : FrameStackOutput) (st : WorldState)
    (hnb : ∀ d, fso.result ≠ .error (.stateDbError d))
    (hsui : tx.sender ∉ fso.substate.suicides)
    (acc : Account) (hacc : st.accounts tx.sender = some acc) :
    ∃ oc st2 obs2, transact_postprocessing spec tx fso st = .ok (oc, st2, obs2)
      ∧ oc.isPreExecutionReject = false
      ∧ st2.nonceOf tx.sender = st.nonceOf tx.sender := by
  cases hres : fso.result with
  | error e =>
    cases e with
    | stateDbError d => exact absurd hres (hnb d)
    | reverted =>
      simp only [transact_postprocessing, hres]
      refine ⟨_, _, _, rfl, rfl, ?_⟩
      rw [WorldState.nonceOf_congr _ _ _ (kill_process_accounts_not_mem _ _ _ _ hsui)]
      exact WorldState.add_balance_nonceOf_of_some _ _ _ _ acc hacc
    | outOfGas =>
      simp only [transact_postprocessing, hres]
      refine ⟨_, _, _, rfl, rfl, ?_⟩
      rw [WorldState.nonceOf_congr _ _ _ (kill_process_accounts_not_mem _ _ _ _ hsui)]
      exact WorldState.add_balance_nonceOf_of_some _ _ _ _ acc hacc
    | other k =>
      simp only [transact_postprocessing, hres]
      refine ⟨_, _, _, rfl, rfl, ?_⟩
      rw [WorldState.nonceOf_congr _ _ _ (kill_process_accounts_not_mem _ _ _ _ hsui)]
      exact WorldState.add_balance_nonceOf_of_some _ _ _ _ acc hacc
  | ok r =>
    cases hb : r.apply_state
    all_goals simp only [transact_postprocessing, hres, hb, Bool.false_eq_true,
      if_true, if_false]
    all_goals refine ⟨_, _, _, rfl, rfl, ?_⟩
    all_goals rw [WorldState.nonceOf_congr _ _ _ (kill_process_accounts_not_mem _ _ _ _ hsui)]
    all_goals exact WorldState.add_balance_nonceOf_of_some _ _ _ _ acc hacc

/-- Claim C6: over the whole transact call (with a VM execution that
preserves the sender's nonce and existence — it is free to move the
sender's balance — does not suicide the sender, and raises no state-db
error), the sender's nonce ends at its pre-state value or that value plus
one; it is bumped exactly once precisely when the outcome is neither
NotExecutedDrop nor NotExecutedToReconsiderPacking, and on those two
rejects no state mutation at all is performed. -/
theorem transact_nonce_monotonicity (spec : Spec) (tx : Transaction)
    (options : TransactOptions) (st : WorldState)
    (vmExec : WorldState → Substate → MultiObservers → Nat → Nat →
      WorldState × FrameStackOutput)
    (hstart : spec.account_start_nonce = 0)
    (hpres_nonce : ∀ st1 sub obs b i,
      ((vmExec st1 sub obs b i).1).nonceOf tx.sender = st1.nonceOf tx.sender)
    (hpres_exists : ∀ st1 sub obs b i,
      ((vmExec st1 sub obs b i).1).existsAcc tx.sender = st1.existsAcc tx.sender)
    (hsui : ∀ st1 sub obs b i,
      tx.sender ∉ ((vmExec st1 sub obs b i).2).substate.suicides)
    (hdb : ∀ st1 sub obs b i d,
      ((vmExec st1 sub obs b i).2).result ≠ .error (.stateDbError d)) :
    ∃ oc stf, transact spec tx options st vmExec = .ok (oc, stf)
      ∧ (stf.nonceOf tx.sender = st.nonceOf tx.sender
          ∨ stf.nonceOf tx.sender = st.nonceOf tx.sender + 1)
      ∧ (stf.nonceOf tx.sender = st.nonceOf tx.sender + 1 ↔
          oc.isPreExecutionReject = false)
      ∧ (oc.isPreExecutionReject = true → stf = st) := by
  rcases hsplit : transact_preprocessing spec tx options st with ⟨pc, st1⟩
  have hcases := transact_preprocessing_state_cases spec tx options st hstart pc st1 hsplit
  cases pc with
  | fail oc =>
    have htr : transact spec tx options st vmExec = .ok (oc, st1) := by
      simp only [transact, hsplit]
    cases hrej : oc.isPreExecutionReject with
    | true =>
      have hst : st1 = st := hcases.1 oc rfl hrej
      refine ⟨oc, st1, htr, Or.inl (by rw [hst]), ?_, fun _ => hst⟩
      constructor
      · intro h
        exact absurd h (by rw [hst]; omega)
      · intro hf
        rw [hrej] at hf
        exact absurd hf (by simp)
    | false =>
      obtain ⟨hn1, _⟩ := hcases.2.1 oc rfl hrej
      refine ⟨oc, st1, htr, Or.inr hn1, ⟨fun _ => hrej, fun _ => hn1⟩, fun hcontra => ?_⟩
      rw [hrej] at hcontra
      exact absurd hcontra (by simp)
  | pass sub b i obs =>
    obtain ⟨hn1, hex1⟩ := hcases.2.2 sub b i obs rfl
    have hexV : ((vmExec st1 sub obs b i).1).existsAcc tx.sender = true := by
      rw [hpres_exists st1 sub obs b i]
      exact hex1
    obtain ⟨accV, haccV⟩ :
        ∃ a, ((vmExec st1 sub obs b i).1).accounts tx.sender = some a := by
      unfold WorldState.existsAcc at hexV
      exact Option.isSome_iff_exists.mp hexV
    obtain ⟨oc2, st2, obs2, hpp, hocrej, hn2⟩ :=
      transact_postprocessing_sender_nonce spec tx (vmExec st1 sub obs b i).2
        (vmExec st1 sub obs b i).1 (hdb st1 sub obs b i) (hsui st1 sub obs b i) accV haccV
    have htr : transact spec tx options st vmExec = .ok (oc2, st2) := by
      simp only [transact, hsplit]
      rw [hpp]
    have hchain : st2.nonceOf tx.sender = st.nonceOf tx.sender + 1 := by
      rw [hn2, hpres_nonce st1 sub obs b i, hn1]
    refine ⟨oc2, st2, htr, Or.inr hchain, ⟨fun _ => hocrej, fun _ => hchain⟩,
      fun hcontra => ?_⟩
    rw [hocrej] at hcontra
    exact absurd hcontra (by simp)

/-- Witness for C6 at a concrete funded transaction and the stub VM. -/
theorem transact_nonce_monotonicity_witness :
    ∃ oc stf, transact wSpec wTxRich wOpts wState wVmExec = .ok (oc, stf)
      ∧ (stf.nonceOf wTxRich.sender = wState.nonceOf wTxRich.sender
          ∨ stf.nonceOf wTxRich.sender = wState.nonceOf wTxRich.sender + 1)
      ∧ (stf.nonceOf wTxRich.sender = wState.nonceOf wTxRich.sender + 1 ↔
          oc.isPreExecutionReject = false)
      ∧ (oc.isPreExecutionReject = true → stf = wState) :=
  transact_nonce_monotonicity wSpec wTxRich wOpts wState wVmExec rfl
    (fun _ _ _ _ _ => rfl) (fun _ _ _ _ _ => rfl)
    (fun _ _ _ _ _ => List.not_mem_nil _)
    (fun _ _ _ _ _ _ h => Except.noConfusion h)

/-- beBytes produces exactly k bytes. -/
theorem beBytes_length (k n : Nat) : (beBytes k n).length = k := by
  induction k generalizing n with
  | zero => rfl
  | succ k ih => simp [beBytes, ih]

/-- Folding the base-256 accumulator over beBytes k n. -/
theorem foldl_beBytes (k : Nat) : ∀ n a,
    List.foldl (fun a b => a * 256 + b) a (beBytes k n) = a * 256 ^ k + n % 256 ^ k := by
  induction k with
  | zero => intro n a; simp [beBytes, Nat.mod_one]
  | succ k ih =>
    intro n a
    simp only [beBytes, List.foldl_append, ih, List.foldl]
    rw [pow_succ, mul_comm (256 ^ k) 256, Nat.mod_mul]
    ring

/-- Decoding inverts encoding for values within 32 bytes. -/
theorem beNat_beBytes (k n : Nat) (h : n < 256 ^ k) : beNat (beBytes k n) = n := by
  unfold beNat
  rw [foldl_beBytes]
  simp [Nat.mod_eq_of_lt h]

/-- Decoding the canonical encoding of a valid UTF-8 string gives it back. -/
theorem abiDecodeString_encode (s : List Nat) (hv : validUtf8 s = true)
    (hlen : s.length < 256 ^ 32) :
    abiDecodeString (abi_encode_string s) = some s := by
  have h32 : (beBytes 32 32).length = 32 := beBytes_length _ _
  have hlen32 : (beBytes 32 s.length).length = 32 := beBytes_length _ _
  have htake : (abi_encode_string s).take 32 = beBytes 32 32 :=
    List.take_left' h32
  have hdrop : (abi_encode_string s).drop 32 =
      beBytes 32 s.length ++ (s ++ List.replicate ((32 - s.length % 32) % 32) 0) :=
    List.drop_left' h32
  have hoff : beNat ((abi_encode_string s).take 32) = 32 := by
    rw [htake]
    exact beNat_beBytes 32 32 (by norm_num)
  have hlength : (abi_encode_string s).length =
      64 + (s.length + ((32 - s.length % 32) % 32)) := by
    simp [abi_encode_string, h32, hlen32]
    omega
  unfold abiDecodeString
  rw [if_neg (by omega), hoff, if_neg (by omega), hdrop, List.take_left' hlen32,
    beNat_beBytes _ _ hlen]
  have hdrop64 : (abi_encode_string s).drop (32 + 32) =
      s ++ List.replicate ((32 - s.length % 32) % 32) 0 := by
    rw [← List.drop_drop, hdrop]
    exact List.drop_left' hlen32
  rw [hdrop64]
  simp only [List.take_left]
  rw [if_neg (lt_irrefl _), if_pos hv]

/-- Claim C7 (amended): decoding the Error(string) ABI encoding of a valid
UTF-8 string s returns s itself when its byte length is below 50, and
s[0..50] followed by the three dots when byte offset 50 is a character
boundary of s; when it is not a boundary the Rust slice panics (modelled
as none).  Inputs shorter than 4 bytes or with a different selector yield
the hex fallback. -/
theorem revert_reason_decode_round_trip (s : List Nat) (hv : validUtf8 s = true)
    (hlen : s.length < 256 ^ 32) :
    revert_reason_decode (abi_encode_error_string s) =
      (if s.length < 50 then some s
       else if is_char_boundary s 50 then some (s.take 50 ++ [46, 46, 46])
       else none)
    ∧ (∀ output : List Nat, output.length < 4 →
        revert_reason_decode output = some ([48, 120] ++ hexEncode output))
    ∧ (∀ output : List Nat, ¬ output.take 4 = [8, 195, 121, 160] →
        revert_reason_decode output = some ([48, 120] ++ hexEncode output)) := by
  refine ⟨?_, ?_, ?_⟩
  · have h4 : ¬ (abi_encode_error_string s).length < 4 := by
      simp [abi_encode_error_string]
    have hsig : (abi_encode_error_string s).take 4 = [8, 195, 121, 160] := by
      simp [abi_encode_error_string, List.take]
    have hrest : (abi_encode_error_string s).drop 4 = abi_encode_string s := rfl
    unfold revert_reason_decode
    rw [if_neg h4, if_pos hsig, hrest, abiDecodeString_encode s hv hlen]
  · intro output h
    unfold revert_reason_decode
    rw [if_pos h]
  · intro output h
    by_cases h4 : output.length < 4
    · unfold revert_reason_decode
      rw [if_pos h4]
    · unfold revert_reason_decode
      rw [if_neg h4, if_neg h]

set_option maxRecDepth 40000 in
/-- Counterexample for C7: on this valid 52-byte string the decoder does
not return s[0..50] plus the ellipsis — the Rust byte slice str[..50]
falls inside a character and panics (none in the model). -/
theorem revert_reason_decode_round_trip_cex :
    revert_reason_decode (abi_encode_error_string c7str) = none
    ∧ revert_reason_decode (abi_encode_error_string c7str) ≠
        some (c7str.take 50 ++ [46, 46, 46])
    ∧ 50 ≤ c7str.length
    ∧ validUtf8 c7str = true := by
  refine ⟨by decide, by decide, by decide, by decide⟩

/-- Witness for the amended C7 at a short ASCII string. -/
theorem revert_reason_decode_round_trip_witness :
    revert_reason_decode (abi_encode_error_string [104, 105]) = some [104, 105] :=
  ((revert_reason_decode_round_trip [104, 105] (by decide) (by decide)).1).trans (by decide)

set_option maxRecDepth 40000 in
/-- Claim C10: revert_reason_decode is claimed total, but on the valid
ABI-encoded Error(string) payload of 49 ASCII bytes followed by one
three-byte character, byte offset 50 is not a UTF-8 character boundary and
the Rust slice str[..50] panics: the model returns none on this input. -/
theorem revert_reason_decode_panics_on_non_boundary :
    revert_reason_decode (abi_encode_error_string c10str) = none
    ∧ validUtf8 c10str = true
    ∧ 50 ≤ c10str.length
    ∧ is_char_boundary c10str 50 = false
    ∧ abiDecodeString (abi_encode_string c10str) = some c10str := by
  refine ⟨by decide, by decide, by decide, by decide, by decide⟩

end HEMVM
